import Mathlib

/-!
Verification of the Kwentuhang Pinoy Fund client (Next.js, two pages:
`src/app/admin/page.tsx` with `AdminPage`, and the viewer `HomePage`).

The embedding models:
- the `GroupRow` record as read from the store, with numeric fields as
  `Option ℚ` (a `none` field models a missing / null value, which the
  JavaScript coercion `Number(x || 0)` turns into `0`);
- the fund-metrics engine (`stats` in `HomePage`): `members`, `monthWeeks`,
  `totalCollected`, `fullMonthPaid`, `targetPerMember`, the per-group
  progress percentage `pct` and `clamp`;
- the authorization gate (`refreshAuth`, `canEdit`);
- the mutation protocol (`savePaidWeeks`, `loadGroups`) as explicit state
  passing over an `AdminState`, with the store's answers supplied as
  explicit `Except` / `Option` arguments and the surfaced messages logged;
- the admin page's event loop as a step function over events, instrumented
  with a flag recording whether a step issued a group read.
-/

namespace Fund

/-- A group record as selected from the store
(`id,name,weekly_amount,weeks_total,paid_weeks,updated_at`).
Numeric columns are `Option ℚ`: `none` models a missing / null field. -/
structure GroupRow where
  id : String
  name : String
  weekly_amount : Option ℚ
  weeks_total : Option ℚ
  paid_weeks : Option ℚ
  updated_at : String
  deriving DecidableEq

/-- JavaScript coercion `Number(x || 0)` applied to a nullable numeric field:
a missing (null) value is falsy and coerces to `0`; a number passes through
(`0 || 0` is `0`, so `some 0` also yields `0`). -/
def toNum (x : Option ℚ) : ℚ := x.getD 0

/-- `clamp(n, min, max) = Math.max(min, Math.min(max, n))` from `HomePage`. -/
def clamp (n lo hi : ℚ) : ℚ := max lo (min hi n)

/-- Per-group progress percentage from `HomePage`:
`totalWeeks > 0 ? clamp((paidWeeks / totalWeeks) * 100, 0, 100) : 0`. -/
def pct (g : GroupRow) : ℚ :=
  let paidWeeks := toNum g.paid_weeks
  let totalWeeks := toNum g.weeks_total
  if 0 < totalWeeks then clamp (paidWeeks / totalWeeks * 100) 0 100 else 0

/-- Per-group paid amount from `HomePage`: `paidWeeks * weekly`. -/
def paidAmount (g : GroupRow) : ℚ :=
  toNum g.paid_weeks * toNum g.weekly_amount

/-- `stats.totalCollected`: `groups.reduce((sum, g) => sum + paidWeeks * weekly, 0)`
with both factors coerced by `Number(_ || 0)`. -/
def totalCollected (gs : List GroupRow) : ℚ :=
  gs.foldl (fun sum g => sum + toNum g.paid_weeks * toNum g.weekly_amount) 0

/-- `stats.fullMonthPaid`: count of groups with
`Number(paid_weeks || 0) >= Number(weeks_total || 0)`. -/
def fullMonthPaid (gs : List GroupRow) : Nat :=
  (gs.filter (fun g => decide (toNum g.weeks_total ≤ toNum g.paid_weeks))).length

/-- `stats.monthWeeks`: `members > 0 ? Math.max(...groups.map(Number(weeks_total || 0))) : 4`.
`Math.max` over a non-empty list is a left fold of the binary max. -/
def monthWeeks : List GroupRow → ℚ
  | [] => 4
  | g :: gs => (gs.map (fun x => toNum x.weeks_total)).foldl max (toNum g.weeks_total)

/-- `stats.targetPerMember`:
`groups[0]?.weeks_total ? Number(groups[0].weeks_total) * Number(groups[0].weekly_amount || 0) : 40`.
The guard is JavaScript truthiness of `groups[0]?.weeks_total`: it is falsy
when the collection is empty, when the field is missing, and when it is `0`. -/
def targetPerMember : List GroupRow → ℚ
  | [] => 40
  | g :: _ =>
    match g.weeks_total with
    | none => 40
    | some w => if w = 0 then 40 else w * toNum g.weekly_amount

/-! ### Authorization gate -/

/-- The authenticated user as returned by the identity provider:
`data.user` with its `id` and nullable `email`. -/
structure AuthUser where
  id : String
  email : Option String
  deriving DecidableEq

/-- JavaScript truthiness of a nullable string (`Boolean(s)`): null and the
empty string are falsy. -/
def truthy (s : Option String) : Bool :=
  match s with
  | none => false
  | some str => !(str == "")

/-- `refreshAuth` from `AdminPage`: given the current user (or none) and the
role-table lookup, returns the `(userEmail, isAdmin)` pair it stores.
No user: `isAdmin := false`. Otherwise `isAdmin := roleRow?.role === "admin"`,
so a lookup miss (`none`) resolves to non-admin (viewer). -/
def refreshAuth (user : Option AuthUser) (roleLookup : String → Option String) :
    Option String × Bool :=
  match user with
  | none => (none, false)
  | some u => (u.email, roleLookup u.id == some "admin")

/-- `canEdit = Boolean(userEmail && isAdmin)` from `AdminPage`. -/
def canEdit (userEmail : Option String) (isAdmin : Bool) : Bool :=
  truthy userEmail && isAdmin

/-! ### Mutation protocol -/

/-- The client-side state of `AdminPage` that the protocol touches. -/
structure AdminState where
  userEmail : Option String
  isAdmin : Bool
  groups : List GroupRow
  msg : Option String
  savingId : Option String
  loadingGroups : Bool
  deriving DecidableEq

/-- `loadGroups` from `AdminPage`, with the store's answer passed explicitly.
Returns the state after the call together with the list of (non-null)
messages surfaced during it. The code sets `msg := null`, fetches, surfaces
`Load error: …` on failure, and replaces `groups` wholesale with
`data ?? []` (so an errored load leaves an empty collection). -/
def loadGroupsRun (st : AdminState) (result : Except String (List GroupRow)) :
    AdminState × List String :=
  match result with
  | .error e =>
    ({ st with msg := some ("Load error: " ++ e), groups := [], loadingGroups := false },
     ["Load error: " ++ e])
  | .ok rows =>
    ({ st with msg := none, groups := rows, loadingGroups := false }, [])

/-- The state after a `loadGroups` call. -/
def loadGroups (st : AdminState) (result : Except String (List GroupRow)) : AdminState :=
  (loadGroupsRun st result).1

/-- The update request `savePaidWeeks` issues:
`.update({ paid_weeks: paidWeeks }).eq("id", id)`. -/
structure WriteRequest where
  id : String
  paid_weeks : ℚ
  deriving DecidableEq

/-- The first half of `savePaidWeeks(id, v)`, up to the await of the store
write: `setSavingId(id); setMsg(null)`. -/
def saveStart (st : AdminState) (id : String) : AdminState :=
  { st with savingId := some id, msg := none }

/-- `savePaidWeeks(id, paidWeeks)` from `AdminPage`, with the store's answers
passed explicitly (`writeError`: the write's error, if any; `reload`: the
groups read performed on success). Returns the issued write request, the
final state, and the messages surfaced in order. On failure it surfaces
`Save failed: …` and performs no reload; on success it surfaces `✅ Saved!`
and then runs `loadGroups`. `setSavingId(null)` ends the call either way. -/
def savePaidWeeks (st : AdminState) (id : String) (paidWeeks : ℚ)
    (writeError : Option String) (reload : Except String (List GroupRow)) :
    WriteRequest × AdminState × List String :=
  let st1 := saveStart st id
  let req : WriteRequest := { id := id, paid_weeks := paidWeeks }
  match writeError with
  | some e =>
    (req, { st1 with msg := some ("Save failed: " ++ e), savingId := none },
     ["Save failed: " ++ e])
  | none =>
    let lr := loadGroupsRun { st1 with msg := some "✅ Saved!" } reload
    (req, { lr.1 with savingId := none }, "✅ Saved!" :: lr.2)

/-- The `disabled` attribute of a group row's input and Save button:
`!canEdit || savingId === g.id`. -/
def editDisabled (c : Bool) (savingId : Option String) (gid : String) : Bool :=
  !c || savingId == some gid

/-! ### Admin page event loop -/

/-- Events driving `AdminPage`, each carrying the external collaborators'
answers it consumes: an authentication-state resolution (`refreshAuth`
outcome inputs plus the group read it may trigger), a click on Refresh, a
click on Save for a row, and a click on Sign out. -/
inductive Ev where
  | authChange (user : Option AuthUser) (roleRow : Option String)
      (load : Except String (List GroupRow))
  | refreshClick (load : Except String (List GroupRow))
  | saveClick (id : String) (v : ℚ) (writeError : Option String)
      (reload : Except String (List GroupRow))
  | signOutClick

/-- Applying a `refreshAuth` outcome to the page state: `setUserEmail(email)`,
then `setIsAdmin` from the role row (false when no user). -/
def applyAuth (st : AdminState) (user : Option AuthUser) (roleRow : Option String) :
    AdminState :=
  match user with
  | none => { st with userEmail := none, isAdmin := false }
  | some u => { st with userEmail := u.email, isAdmin := roleRow == some "admin" }

/-- One step of the admin page's event loop. The second component records
whether the step issued a group read.
- `authChange`: apply `refreshAuth`; the `useEffect([isAdmin])` hook runs
  `loadGroups()` exactly when `isAdmin` changed and is now true.
- `refreshClick`: the Refresh button is rendered only when `canEdit`.
- `saveClick`: the Save button is disabled when `!canEdit || savingId === id`;
  an enabled click runs `savePaidWeeks`, which reads the groups only on
  write success.
- `signOutClick`: `setGroups([]); setMsg(null)` (the auth change arrives as a
  separate `authChange` event from the subscription). -/
def step (st : AdminState) (e : Ev) : AdminState × Bool :=
  match e with
  | .authChange user roleRow load =>
    let st1 := applyAuth st user roleRow
    if st1.isAdmin && !st.isAdmin then (loadGroups st1 load, true) else (st1, false)
  | .refreshClick load =>
    if canEdit st.userEmail st.isAdmin then (loadGroups st load, true) else (st, false)
  | .saveClick id v writeError reload =>
    if editDisabled (canEdit st.userEmail st.isAdmin) st.savingId id then (st, false)
    else ((savePaidWeeks st id v writeError reload).2.1, writeError.isNone)
  | .signOutClick => ({ st with groups := [], msg := none }, false)

/-- The page's initial state: signed out, no groups. -/
def initialState : AdminState :=
  { userEmail := none, isAdmin := false, groups := [], msg := none,
    savingId := none, loadingGroups := false }

/-- All states visited while consuming a list of events (initial state
included). -/
def runStates (st : AdminState) : List Ev → List AdminState
  | [] => [st]
  | e :: evs => st :: runStates (step st e).1 evs

/-- For each consumed event, whether its step issued a group read. -/
def runReads (st : AdminState) : List Ev → List Bool
  | [] => []
  | e :: evs => (step st e).2 :: runReads (step st e).1 evs

/-! ### Concrete records used in examples -/

/-- A fully paid group: weekly 10, 4 of 4 weeks paid. -/
def gA : GroupRow :=
  { id := "a", name := "A", weekly_amount := some 10, weeks_total := some 4,
    paid_weeks := some 4, updated_at := "t1" }

/-- A half-paid group: weekly 10, 2 of 4 weeks paid. -/
def gB : GroupRow :=
  { id := "b", name := "B", weekly_amount := some 10, weeks_total := some 4,
    paid_weeks := some 2, updated_at := "t2" }

/-- A group whose `weeks_total` is zero (falsy in JavaScript). -/
def gZ : GroupRow :=
  { id := "z", name := "Z", weekly_amount := some 10, weeks_total := some 0,
    paid_weeks := some 0, updated_at := "t3" }

end Fund


namespace Fund

/-! ### Helper lemmas -/

lemma foldl_add_map_sum {α : Type} (f : α → ℚ) (a : ℚ) (l : List α) :
    l.foldl (fun s x => s + f x) a = a + (l.map f).sum := by
  induction l generalizing a with
  | nil => simp
  | cons x xs ih => simp [List.foldl_cons, ih, add_assoc]

/-! ### Claims about the metrics engine -/

/-- C1: `totalCollected` is the sum over all groups of
`paidWeeks × weeklyAmount` (each factor coerced by `Number(_ || 0)`, so a
missing field contributes as zero — `toNum none = 0` — and the total
function never throws), and over the empty collection it is `0`. -/
theorem c1_totalCollected_sum (gs : List GroupRow) :
    totalCollected gs = (gs.map (fun g => toNum g.paid_weeks * toNum g.weekly_amount)).sum ∧
    totalCollected [] = 0 ∧ toNum none = 0 := by
  refine ⟨?_, rfl, rfl⟩
  simpa using foldl_add_map_sum (fun g => toNum g.paid_weeks * toNum g.weekly_amount) 0 gs

/-- C2: the displayed progress percentage is
`clamp((paidWeeks / weeksTotal) × 100, 0, 100)` whenever `weeksTotal > 0`;
in particular for `0 ≤ paidWeeks ≤ weeksTotal` it equals
`100 × paidWeeks / weeksTotal` and lies in `[0, 100]`, and for
`weeksTotal = 0` it equals `0` (no division-by-zero fault). -/
theorem c2_progress_pct (g : GroupRow) :
    (0 < toNum g.weeks_total →
      pct g = clamp (toNum g.paid_weeks / toNum g.weeks_total * 100) 0 100) ∧
    (0 < toNum g.weeks_total → 0 ≤ toNum g.paid_weeks →
      toNum g.paid_weeks ≤ toNum g.weeks_total →
      pct g = 100 * toNum g.paid_weeks / toNum g.weeks_total ∧
      0 ≤ pct g ∧ pct g ≤ 100) ∧
    (toNum g.weeks_total = 0 → pct g = 0) := by
  refine ⟨fun hw => ?_, fun hw hp hpw => ?_, fun hw => ?_⟩
  · simp [pct, hw]
  · have hx0 : 0 ≤ toNum g.paid_weeks / toNum g.weeks_total * 100 := by positivity
    have hx1 : toNum g.paid_weeks / toNum g.weeks_total ≤ 1 := (div_le_one hw).mpr hpw
    have hx100 : toNum g.paid_weeks / toNum g.weeks_total * 100 ≤ 100 := by nlinarith
    have hpct : pct g = toNum g.paid_weeks / toNum g.weeks_total * 100 := by
      simp [pct, hw, clamp, min_eq_right hx100, max_eq_right hx0]
    refine ⟨?_, ?_, ?_⟩
    · rw [hpct, div_mul_eq_mul_div, mul_comm]
    · rw [hpct]; exact hx0
    · rw [hpct]; exact hx100
  · simp [pct, hw]

/-- Witness for C2 at the concrete half-paid group `gB`. -/
theorem c2_progress_pct_witness :
    pct gB = 100 * toNum gB.paid_weeks / toNum gB.weeks_total ∧
    0 ≤ pct gB ∧ pct gB ≤ 100 :=
  (c2_progress_pct gB).2.1 (by norm_num [toNum, gB]) (by norm_num [toNum, gB])
    (by norm_num [toNum, gB])

/-- C7: `fullMonthPaid` counts exactly the groups whose
`paidWeeks ≥ weeksTotal`: it is `0` on the empty collection, adding a group
increments it exactly when that group satisfies the bound, and the two-group
example `[{paid 4, total 4}, {paid 2, total 4}]` yields `1`. -/
theorem c7_fullMonthPaid_counts (gs : List GroupRow) (g : GroupRow) :
    (toNum g.weeks_total ≤ toNum g.paid_weeks →
      fullMonthPaid (g :: gs) = fullMonthPaid gs + 1) ∧
    (¬ toNum g.weeks_total ≤ toNum g.paid_weeks →
      fullMonthPaid (g :: gs) = fullMonthPaid gs) ∧
    fullMonthPaid ([] : List GroupRow) = 0 ∧
    fullMonthPaid [gA, gB] = 1 := by
  refine ⟨fun h => ?_, fun h => ?_, rfl, ?_⟩
  · simp [fullMonthPaid, List.filter_cons, h]
  · simp [fullMonthPaid, List.filter_cons, h]
  · norm_num [fullMonthPaid, List.filter, toNum, gA, gB]

/-- Witness for C7: adding the fully paid group `gA` increments the count. -/
theorem c7_fullMonthPaid_counts_witness :
    fullMonthPaid [gA] = fullMonthPaid [] + 1 :=
  (c7_fullMonthPaid_counts [] gA).1 (by norm_num [toNum, gA])

end Fund

namespace Fund

lemma le_foldl_max (a : ℚ) (l : List ℚ) : a ≤ l.foldl max a := by
  induction l generalizing a with
  | nil => exact le_refl a
  | cons x xs ih => exact le_trans (le_max_left a x) (ih (max a x))

lemma mem_le_foldl_max {x : ℚ} (a : ℚ) (l : List ℚ) (hx : x ∈ l) :
    x ≤ l.foldl max a := by
  induction l generalizing a with
  | nil => cases hx
  | cons y ys ih =>
    rcases List.mem_cons.mp hx with h | h
    · subst h; exact le_trans (le_max_right a x) (le_foldl_max (max a x) ys)
    · exact ih (max a y) h

lemma foldl_max_mem (a : ℚ) (l : List ℚ) : l.foldl max a = a ∨ l.foldl max a ∈ l := by
  induction l generalizing a with
  | nil => left; rfl
  | cons y ys ih =>
    rcases ih (max a y) with h | h
    · rcases max_choice a y with hm | hm
      · left; rw [List.foldl_cons, h, hm]
      · right; rw [List.foldl_cons, h, hm]; exact List.mem_cons_self y ys
    · right; exact List.mem_cons_of_mem y h

/-- C9: `monthWeeks` of the empty collection is the fallback `4`, and on a
non-empty collection it is the maximum of the coerced `weeks_total` values:
an upper bound of them that is attained by some group. -/
theorem c9_monthWeeks_max (gs : List GroupRow) :
    monthWeeks [] = 4 ∧
    (gs ≠ [] →
      (∀ g ∈ gs, toNum g.weeks_total ≤ monthWeeks gs) ∧
      ∃ g ∈ gs, monthWeeks gs = toNum g.weeks_total) := by
  refine ⟨rfl, fun hne => ?_⟩
  match gs with
  | [] => exact absurd rfl hne
  | g :: rest =>
    rw [show monthWeeks (g :: rest)
        = (rest.map (fun x => toNum x.weeks_total)).foldl max (toNum g.weeks_total) from rfl]
    constructor
    · intro x hx
      rcases List.mem_cons.mp hx with h | h
      · subst h; exact le_foldl_max _ _
      · exact mem_le_foldl_max _ _ (List.mem_map_of_mem _ h)
    · rcases foldl_max_mem (toNum g.weeks_total)
        (rest.map (fun x => toNum x.weeks_total)) with h | h
      · exact ⟨g, List.mem_cons_self _ _, h⟩
      · rcases List.mem_map.mp h with ⟨x, hx, hx2⟩
        exact ⟨x, List.mem_cons_of_mem _ hx, hx2.symm⟩

/-- Witness for C9 on the two-group collection `[gA, gB]`. -/
theorem c9_monthWeeks_max_witness :
    (∀ g ∈ [gA, gB], toNum g.weeks_total ≤ monthWeeks [gA, gB]) ∧
    ∃ g ∈ [gA, gB], monthWeeks [gA, gB] = toNum g.weeks_total :=
  (c9_monthWeeks_max [gA, gB]).2 (by simp)

/-- C6 counterexample: the one-group collection `[gZ]` (first group has
`weeks_total = 0`) is non-empty, yet `targetPerMember` is the fallback `40`
and not `weeksTotal × weeklyAmount = 0` of its first group — so the fallback
is not taken exactly when the collection is empty, and a non-empty
collection need not yield the first group's product. -/
theorem c6_targetPerMember_counterexample :
    targetPerMember [gZ] = 40 ∧
    targetPerMember [gZ] ≠ toNum gZ.weeks_total * toNum gZ.weekly_amount ∧
    ([gZ] : List GroupRow) ≠ [] := by
  refine ⟨by norm_num [targetPerMember, gZ], ?_, by simp⟩
  norm_num [targetPerMember, toNum, gZ]

/-- C6 amended: `targetPerMember` is the first group's
`weeksTotal × weeklyAmount` when the collection is non-empty and the first
group's `weeks_total` coerces to a non-zero number; it is the fallback `40`
when the collection is empty or the first group's `weeks_total` is missing
or zero (JavaScript falsiness of `groups[0]?.weeks_total`). -/
theorem c6_targetPerMember_amended (g : GroupRow) (rest : List GroupRow) :
    targetPerMember [] = 40 ∧
    (toNum g.weeks_total = 0 → targetPerMember (g :: rest) = 40) ∧
    (toNum g.weeks_total ≠ 0 →
      targetPerMember (g :: rest) = toNum g.weeks_total * toNum g.weekly_amount) := by
  refine ⟨rfl, fun h => ?_, fun h => ?_⟩
  · cases hw : g.weeks_total with
    | none => simp [targetPerMember, hw]
    | some w =>
      simp only [toNum, hw, Option.getD_some] at h
      simp [targetPerMember, hw, h]
  · cases hw : g.weeks_total with
    | none => exact absurd (by simp [toNum, hw]) h
    | some w =>
      simp only [toNum, hw, Option.getD_some] at h ⊢
      simp [targetPerMember, toNum, hw, h]

/-- Witness for C6 (amended) at `[gA]`: the product `4 × 10`. -/
theorem c6_targetPerMember_amended_witness :
    targetPerMember [gA] = toNum gA.weeks_total * toNum gA.weekly_amount :=
  (c6_targetPerMember_amended gA []).2.2 (by norm_num [toNum, gA])

/-- C3 counterexample: with `gA` (whose `weeks_total` is `4`) on screen, the
client accepts `newValue = 99` and `savePaidWeeks` sends the write request
`{ paid_weeks: 99 }` for that group unchanged — a value outside
`[0, weeksTotal]` reaches the store, so the client neither clamps nor
rejects before the write. -/
theorem c3_invariant_counterexample :
    (savePaidWeeks initialState gA.id 99 none (.ok [])).1
      = { id := gA.id, paid_weeks := 99 } ∧
    toNum gA.weeks_total = 4 ∧
    ¬ (savePaidWeeks initialState gA.id 99 none (.ok [])).1.paid_weeks
        ≤ toNum gA.weeks_total := by
  refine ⟨rfl, by norm_num [toNum, gA], ?_⟩
  norm_num [savePaidWeeks, saveStart, toNum, gA]

/-- C3 amended: the client performs no clamping and no value-based
rejection: for every group id and every `newValue`, `savePaidWeeks` issues
the write request carrying exactly the raw `newValue` (the input's
`min`/`max` attributes are advisory only); range enforcement is left to the
store. -/
theorem c3_invariant_amended (st : AdminState) (id : String) (v : ℚ)
    (writeError : Option String) (reload : Except String (List GroupRow)) :
    (savePaidWeeks st id v writeError reload).1 = { id := id, paid_weeks := v } := by
  cases writeError <;> rfl

/-- The user used in the authorization witnesses. -/
def uAdmin : AuthUser := { id := "u1", email := some "admin@x" }

/-- C4: `canEdit` holds exactly for a present session whose role lookup
returned `admin`: an absent session gives `canEdit = false`; a lookup miss
resolves to viewer (`isAdmin = false`, `canEdit = false`); a `viewer` role
gives `canEdit = false`; and for a present session with a (non-empty)
authenticated email, `canEdit = true` iff the lookup returned `admin`. -/
theorem c4_canEdit_iff (user : Option AuthUser) (roleLookup : String → Option String) :
    (user = none →
      canEdit (refreshAuth user roleLookup).1 (refreshAuth user roleLookup).2 = false) ∧
    (∀ u, user = some u → roleLookup u.id = none →
      (refreshAuth user roleLookup).2 = false ∧
      canEdit (refreshAuth user roleLookup).1 (refreshAuth user roleLookup).2 = false) ∧
    (∀ u, user = some u → roleLookup u.id = some "viewer" →
      canEdit (refreshAuth user roleLookup).1 (refreshAuth user roleLookup).2 = false) ∧
    (∀ u s, user = some u → u.email = some s → s ≠ "" →
      (canEdit (refreshAuth user roleLookup).1 (refreshAuth user roleLookup).2 = true ↔
        roleLookup u.id = some "admin")) := by
  refine ⟨fun h => ?_, fun u h hr => ?_, fun u h hr => ?_, fun u s h he hs => ?_⟩
  · subst h; rfl
  · subst h; simp [refreshAuth, canEdit, hr]
  · subst h; simp [refreshAuth, canEdit, hr]
  · subst h
    simp [refreshAuth, canEdit, truthy, he, beq_iff_eq, hs]

/-- Witness for C4: a present session for `uAdmin` whose lookup returns
`admin` can edit. -/
theorem c4_canEdit_iff_witness :
    canEdit (refreshAuth (some uAdmin) (fun _ => some "admin")).1
      (refreshAuth (some uAdmin) (fun _ => some "admin")).2 = true :=
  ((c4_canEdit_iff (some uAdmin) (fun _ => some "admin")).2.2.2 uAdmin "admin@x"
    rfl rfl (by decide)).mpr rfl

end Fund

namespace Fund

/-- C5: the mutation protocol's result handling. On store success the prior
message is cleared and replaced (reload with `.ok rows` ends with
`msg = none`), the confirmation `✅ Saved!` is surfaced, and the displayed
collection is wholesale replaced by the reloaded rows (a full reload, not a
local patch — the result does not depend on the prior `groups`). On store
failure the store's error message is surfaced as `Save failed: …`, no reload
happens, and the displayed groups (hence the displayed `paidWeeks` of every
group) are left unchanged. -/
theorem c5_save_result (st : AdminState) (id : String) (v : ℚ) (e : String)
    (rows : List GroupRow) (reload : Except String (List GroupRow)) :
    ((savePaidWeeks st id v none (.ok rows)).2.1.groups = rows ∧
     (savePaidWeeks st id v none (.ok rows)).2.1.msg = none ∧
     "✅ Saved!" ∈ (savePaidWeeks st id v none reload).2.2) ∧
    ((savePaidWeeks st id v (some e) reload).2.1.groups = st.groups ∧
     (savePaidWeeks st id v (some e) reload).2.1.msg = some ("Save failed: " ++ e) ∧
     (savePaidWeeks st id v (some e) reload).2.2 = ["Save failed: " ++ e]) :=
  ⟨⟨rfl, rfl, List.mem_cons_self _ _⟩, rfl, rfl, rfl⟩

/-- An authenticated admin state with both example groups on screen, used
to exhibit the overlapping-save interleaving. -/
def stAdmin : AdminState :=
  { userEmail := some "admin@x", isAdmin := true, groups := [gA, gB], msg := none,
    savingId := none, loadingGroups := false }

/-- C8 counterexample: `savingId` is a single slot, so the guard does not
survive an overlapping save for a different group. Concretely, in the admin
state `stAdmin` (where `canEdit` holds): starting group `gA`'s save sets
`savingId` to `"a"`; while that write is awaited, group `gB`'s Save button
is NOT disabled (`savingId === g.id` is false for `gB`), so its click
handler can run; its `saveStart` overwrites `savingId` with `"b"` — and in
the resulting state, with `gA`'s mutation still in flight, `gA`'s own input
and Save button are NOT disabled, so a second write for `gA` can be
initiated inside `gA`'s window. -/
theorem c8_inflight_counterexample :
    canEdit stAdmin.userEmail stAdmin.isAdmin = true ∧
    (saveStart stAdmin gA.id).savingId = some gA.id ∧
    editDisabled (canEdit stAdmin.userEmail stAdmin.isAdmin)
      (saveStart stAdmin gA.id).savingId gB.id = false ∧
    (saveStart (saveStart stAdmin gA.id) gB.id).savingId = some gB.id ∧
    editDisabled (canEdit stAdmin.userEmail stAdmin.isAdmin)
      (saveStart (saveStart stAdmin gA.id) gB.id).savingId gA.id = false :=
  ⟨rfl, rfl, rfl, rfl, rfl⟩

/-- C8 amended: the concurrency guard is the single `savingId` slot.
Entering `savePaidWeeks` for a group sets `savingId` to that group's id; a
group load never changes `savingId`; while `savingId` equals a group's id,
that group's input and Save button are disabled whatever `canEdit` is; and
completion of `savePaidWeeks` resets `savingId`. Hence the in-flight
group's edit controls stay disabled for the whole window provided no save
for a different group starts meanwhile — but a save started for another
group overwrites the slot and re-enables the first group's controls
mid-flight, so the guard holds only while its save is the sole one in
flight. -/
theorem c8_inflight_disabled (st st' : AdminState) (id : String) (v : ℚ) (c : Bool)
    (writeError : Option String) (r : Except String (List GroupRow)) :
    (saveStart st id).savingId = some id ∧
    (loadGroupsRun st' r).1.savingId = st'.savingId ∧
    editDisabled c (some id) id = true ∧
    (savePaidWeeks st id v writeError r).2.1.savingId = none := by
  refine ⟨rfl, ?_, ?_, ?_⟩
  · cases r <;> rfl
  · simp [editDisabled]
  · cases writeError <;> cases r <;> rfl

lemma applyAuth_groups (st : AdminState) (user : Option AuthUser)
    (roleRow : Option String) : (applyAuth st user roleRow).groups = st.groups := by
  cases user <;> rfl

lemma loadGroupsRun_isAdmin (st : AdminState) (r : Except String (List GroupRow)) :
    (loadGroupsRun st r).1.isAdmin = st.isAdmin := by
  cases r <;> rfl

lemma savePaidWeeks_isAdmin (st : AdminState) (id : String) (v : ℚ)
    (w : Option String) (r : Except String (List GroupRow)) :
    (savePaidWeeks st id v w r).2.1.isAdmin = st.isAdmin := by
  cases w <;> cases r <;> rfl

lemma canEdit_isAdmin {em : Option String} {adm : Bool}
    (h : canEdit em adm = true) : adm = true := by
  simp [canEdit, Bool.and_eq_true] at h
  exact h.2

lemma step_read_isAdmin (st : AdminState) (e : Ev) :
    (step st e).2 = true → (step st e).1.isAdmin = true := by
  intro h
  cases e with
  | authChange user roleRow load =>
    by_cases hc : ((applyAuth st user roleRow).isAdmin && !st.isAdmin) = true
    · rw [step, if_pos hc]
      rw [loadGroups, loadGroupsRun_isAdmin]
      exact (Bool.and_eq_true _ _ |>.mp hc).1
    · rw [step, if_neg hc] at h
      exact absurd h (by simp)
  | refreshClick load =>
    by_cases hc : canEdit st.userEmail st.isAdmin = true
    · rw [step, if_pos hc]
      rw [loadGroups, loadGroupsRun_isAdmin]
      exact canEdit_isAdmin hc
    · rw [step, if_neg hc] at h
      exact absurd h (by simp)
  | saveClick id v writeError reload =>
    by_cases hc : editDisabled (canEdit st.userEmail st.isAdmin) st.savingId id = true
    · rw [step, if_pos hc] at h
      exact absurd h (by simp)
    · rw [step, if_neg hc]
      rw [savePaidWeeks_isAdmin]
      have hce : canEdit st.userEmail st.isAdmin = true := by
        rcases Bool.eq_false_or_eq_true (canEdit st.userEmail st.isAdmin) with ht | hf
        · exact ht
        · exact absurd (by simp [editDisabled, hf]) hc
      exact canEdit_isAdmin hce
  | signOutClick =>
    exact absurd h (by simp [step])

lemma step_no_read_groups (st : AdminState) (e : Ev) :
    (step st e).2 = false → (step st e).1.groups = st.groups ∨ (step st e).1.groups = [] := by
  intro h
  cases e with
  | authChange user roleRow load =>
    by_cases hc : ((applyAuth st user roleRow).isAdmin && !st.isAdmin) = true
    · rw [step, if_pos hc] at h
      exact absurd h (by simp)
    · rw [step, if_neg hc]
      exact Or.inl (applyAuth_groups st user roleRow)
  | refreshClick load =>
    by_cases hc : canEdit st.userEmail st.isAdmin = true
    · rw [step, if_pos hc] at h
      exact absurd h (by simp)
    · rw [step, if_neg hc]
      exact Or.inl rfl
  | saveClick id v writeError reload =>
    by_cases hc : editDisabled (canEdit st.userEmail st.isAdmin) st.savingId id = true
    · rw [step, if_pos hc]
      exact Or.inl rfl
    · rw [step, if_neg hc] at h ⊢
      cases writeError with
      | none => exact absurd h (by simp [Option.isNone])
      | some e => exact Or.inl rfl
  | signOutClick =>
    exact Or.inr rfl

lemma self_mem_runStates (st : AdminState) (evs : List Ev) : st ∈ runStates st evs := by
  cases evs <;> simp [runStates]

lemma runStates_groups_empty (evs : List Ev) (st : AdminState) (hg : st.groups = [])
    (hall : ∀ s ∈ runStates st evs, s.isAdmin = false) :
    ∀ s ∈ runStates st evs, s.groups = [] := by
  induction evs generalizing st with
  | nil =>
    intro s hs
    simp only [runStates, List.mem_singleton] at hs
    exact hs ▸ hg
  | cons e evs ih =>
    intro s hs
    rw [runStates] at hs
    rcases List.mem_cons.mp hs with h | h
    · exact h ▸ hg
    · have hst1 : (step st e).1.isAdmin = false := by
        apply hall
        rw [runStates]
        exact List.mem_cons_of_mem st (self_mem_runStates _ evs)
      have hflag : (step st e).2 = false := by
        rcases Bool.eq_false_or_eq_true (step st e).2 with ht | hf
        · exact absurd (step_read_isAdmin st e ht) (by simp [hst1])
        · exact hf
      have hg1 : (step st e).1.groups = [] := by
        rcases step_no_read_groups st e hflag with h1 | h1
        · exact h1.trans hg
        · exact h1
      exact ih (step st e).1 hg1
        (fun t ht => hall t (by rw [runStates]; exact List.mem_cons_of_mem st ht)) s h

/-- C10: on the admin surface a group read is issued only once the resolved
role is admin: any event-loop step that issues a group read ends in a state
with `isAdmin = true`; consequently, along any event trace from the initial
state all of whose states have `isAdmin = false` (anonymous or authenticated
viewer throughout), the displayed group list is empty at every state. -/
theorem c10_load_gated_by_admin :
    (∀ (st : AdminState) (e : Ev), (step st e).2 = true → (step st e).1.isAdmin = true) ∧
    (∀ evs : List Ev, (∀ s ∈ runStates initialState evs, s.isAdmin = false) →
      ∀ s ∈ runStates initialState evs, s.groups = []) :=
  ⟨step_read_isAdmin, fun evs hall => runStates_groups_empty evs initialState rfl hall⟩

/-- The viewer user used in the C10 witness trace. -/
def uViewer : AuthUser := { id := "u2", email := some "v@x" }

/-- A concrete event trace in which the role resolves to viewer: sign-in as
`uViewer` (role row `viewer`), a Refresh attempt, then sign-out. -/
def evsViewer : List Ev :=
  [Ev.authChange (some uViewer) (some "viewer") (Except.ok [gA]),
   Ev.refreshClick (Except.ok [gA]),
   Ev.signOutClick]

/-- Witness for C10 on the trace `evsViewer`: every state on it keeps
`isAdmin = false`, and the state reached after the sign-in (email set,
still not admin) has an empty group list. -/
theorem c10_load_gated_by_admin_witness :
    (AdminState.mk (some "v@x") false [] none none false).groups = [] :=
  c10_load_gated_by_admin.2 evsViewer (by decide) _ (by decide)

end Fund
